import Mathlib

/-!
Verification of the human-typer repository's typing core.

The embedding models `src/human_typer/typing_thread.py` (class `TypingThread`)
together with the configuration constants of `src/human_typer/config.py`.
The duplicated helpers `get_base_delay` / `get_char_modifier` of
`src/human_typer/cli.py` are character-for-character the same computations
and are covered by the same definitions.

Real numbers produced by Python's float arithmetic are modelled as exact
rationals; random draws (`random.random()`, `random.expovariate`,
`random.choice`) are passed in explicitly as oracle arguments, so the
theorems below quantify over all possible draw outcomes.  Sleeping
(`time.sleep`) only consumes wall-clock time and produces no observable
event, so the delay computations are modelled as standalone functions
(`get_base_delay`, `get_char_modifier`, `update_rhythm`) and the session
loop is modelled by the sequence of observable events it produces:
physical keystrokes (`pyautogui` writes / backspaces, abstracted to one
`emitKeystroke` operation exactly as the code funnels every character
through `TypingThread._type_char`) and Qt signal emissions
(`char_typed`, `progress`, `stopped_at`, `finished_typing`).
-/

/- ### Configuration constants (src/human_typer/config.py) -/

def MODIFIER_PUNCTUATION : ℚ := 18/10

def MODIFIER_SPECIAL : ℚ := 2

def MODIFIER_CAPITAL : ℚ := 14/10

def MODIFIER_SPACE : ℚ := 11/10

def MODIFIER_NEWLINE : ℚ := 4

def MODIFIER_DIGIT : ℚ := 13/10

def MODIFIER_REPEATED : ℚ := 6/10

def MODIFIER_COMMON : ℚ := 85/100

/-- `Config.COMMON_CHARS = "etaoinshrlducmwfgypbvkjxqz"`. -/
def COMMON_CHARS : List Char := "etaoinshrlducmwfgypbvkjxqz".toList

/-- `Config.PUNCTUATION_CHARS = ".,!?;:'\"-"` (apostrophe written `\x27`). -/
def PUNCTUATION_CHARS : List Char := ".,!?;:\x27\"-".toList

/-- `Config.SPECIAL_CHARS = "@#$%^&*()_+=[]{}\|<>/`~"` (braces written
`\x7b`, `\x7d`). -/
def SPECIAL_CHARS : List Char := "@#$%^&*()_+=[]\x7b\x7d\\|<>/`~".toList

def RHYTHM_DRIFT_RATE : ℚ := 8/100

def RHYTHM_MIN : ℚ := 6/10

def RHYTHM_MAX : ℚ := 18/10

def TYPO_PROBABILITY : ℚ := 2/100

def TYPO_STREAK_PROBABILITY : ℚ := 35/100

def TYPO_STREAK_DECAY : ℚ := 6/10

/- ### Python string predicates

The program feeds arbitrary text through Python's Unicode string methods.
The predicates below reproduce `str.isalnum`, `str.isdigit`, `str.isupper`
and single-character `str.lower` / `str.upper` exactly on the code points
up to U+00FF (Basic Latin and Latin-1 Supplement), the range in which every
concrete character of this development lies; beyond that range they fall
back to the ASCII behaviour.  (`'ß'.upper()` and `'ÿ'.upper()` map outside
Latin-1 in Python and are left unchanged here; neither occurs in the
QWERTY adjacency table on which the code calls `.upper()`.) -/

/-- Python `str.isalnum` on code points ≤ U+00FF: ASCII alphanumerics,
the Latin-1 letters U+00C0–U+00FF minus `×` (U+00D7) and `÷` (U+00F7),
and `ª µ º ² ³ ¹ ¼ ½ ¾`. -/
def py_isalnum (c : Char) : Bool :=
  c.isAlphanum
  || (decide (0xC0 ≤ c.toNat) && decide (c.toNat ≤ 0xFF)
      && c.toNat != 0xD7 && c.toNat != 0xF7)
  || (c.toNat == 0xAA || c.toNat == 0xB2 || c.toNat == 0xB3
      || c.toNat == 0xB5 || c.toNat == 0xB9 || c.toNat == 0xBA
      || c.toNat == 0xBC || c.toNat == 0xBD || c.toNat == 0xBE)

/-- Python `str.isdigit` on code points ≤ U+00FF: ASCII digits and
`² ³ ¹`. -/
def py_isdigit (c : Char) : Bool :=
  c.isDigit || c.toNat == 0xB2 || c.toNat == 0xB3 || c.toNat == 0xB9

/-- Python `str.isupper` for a single character on code points ≤ U+00FF:
ASCII uppercase and the Latin-1 uppercase letters U+00C0–U+00DE minus `×`. -/
def py_isupper (c : Char) : Bool :=
  c.isUpper
  || (decide (0xC0 ≤ c.toNat) && decide (c.toNat ≤ 0xDE) && c.toNat != 0xD7)

/-- Python single-character `str.lower` on code points ≤ U+00FF:
uppercase letters shift down by 0x20, everything else is unchanged. -/
def py_lower (c : Char) : Char :=
  if py_isupper c then Char.ofNat (c.toNat + 0x20) else c

/-- Python single-character `str.upper` restricted as documented above:
ASCII lowercase and the Latin-1 lowercase letters U+00E0–U+00FE minus `÷`
shift up by 0x20, everything else is unchanged. -/
def py_upper (c : Char) : Char :=
  if c.isLower
      || (decide (0xE0 ≤ c.toNat) && decide (c.toNat ≤ 0xFE)
          && c.toNat != 0xF7) then
    Char.ofNat (c.toNat - 0x20)
  else c

/- ### Delay model -/

/-- `TypingThread._get_base_delay` (identical to `cli.get_base_delay`):
`delay_range = max_delay - min_delay`; if `delay_range <= 0` return
`min_delay`; otherwise return `min(min_delay + extra_delay, max_delay)`,
where `extra_delay` is the (non-negative) draw of
`random.expovariate(3.0 / delay_range)`, passed in here as `extra`. -/
def get_base_delay (min_delay max_delay extra : ℚ) : ℚ :=
  if max_delay - min_delay ≤ 0 then min_delay
  else min (min_delay + extra) max_delay

/-- `TypingThread._get_char_modifier` (identical to
`cli.get_char_modifier`).  `prev` is `self._prev_char`, which is the empty
string `''` before the first character — modelled as `none`.  The cascade
of early returns of the source is rendered as nested conditionals in the
same order; the final fallback mirrors the source's mutable `modifier`
accumulator. -/
def get_char_modifier (c : Char) (prev : Option Char) : ℚ :=
  if (match prev with
      | some p => py_lower c == py_lower p
      | none => false) && py_isalnum c then MODIFIER_REPEATED
  else if c == '\n' then MODIFIER_NEWLINE
  else if c == ' ' then MODIFIER_SPACE
  else if SPECIAL_CHARS.contains c then MODIFIER_SPECIAL
  else if PUNCTUATION_CHARS.contains c then MODIFIER_PUNCTUATION
  else if py_isdigit c then MODIFIER_DIGIT
  else
    let m1 : ℚ := 1
    let m2 : ℚ := if py_isupper c then m1 * MODIFIER_CAPITAL else m1
    if (COMMON_CHARS.take 10).contains (py_lower c) then m2 * MODIFIER_COMMON
    else m2

/-- The spec's §4.1 rule list for `charModifier`, written from its words:
a priority-ordered rule set, first match wins, except the final fallback
which multiplies the two independent factors CAPITAL and COMMON. -/
def char_modifier_rules (c : Char) (prev : Option Char) : ℚ :=
  if (match prev with
      | some p => py_lower c == py_lower p
      | none => false) && py_isalnum c then MODIFIER_REPEATED
  else if c == '\n' then MODIFIER_NEWLINE
  else if c == ' ' then MODIFIER_SPACE
  else if SPECIAL_CHARS.contains c then MODIFIER_SPECIAL
  else if PUNCTUATION_CHARS.contains c then MODIFIER_PUNCTUATION
  else if py_isdigit c then MODIFIER_DIGIT
  else
    (if py_isupper c then MODIFIER_CAPITAL else 1)
      * (if (COMMON_CHARS.take 10).contains (py_lower c) then MODIFIER_COMMON
         else 1)

/- ### Rhythm model (TypingThread._update_rhythm) -/

/-- The clamp-and-bounce block of `TypingThread._update_rhythm`:
`if self._rhythm <= RHYTHM_MIN` force `(RHYTHM_MIN, 1)`,
`elif self._rhythm >= RHYTHM_MAX` force `(RHYTHM_MAX, -1)`,
else keep the drifted value and current direction. -/
def rhythm_clamp (r : ℚ) (d : Int) : ℚ × Int :=
  if r ≤ RHYTHM_MIN then (RHYTHM_MIN, 1)
  else if RHYTHM_MAX ≤ r then (RHYTHM_MAX, -1)
  else (r, d)

/-- `TypingThread._update_rhythm`.  State is `(self._rhythm,
self._rhythm_direction)`.  `flip` is the outcome of
`random.random() < config.RHYTHM_CHANGE_PROBABILITY` and `u` the draw of
the second `random.random()`.  The direction possibly flips, the rhythm
drifts by `direction * RHYTHM_DRIFT_RATE * u`, and the result is clamped
and bounced by `rhythm_clamp`. -/
def update_rhythm (rhythm : ℚ) (direction : Int) (flip : Bool) (u : ℚ) :
    ℚ × Int :=
  let d : Int := if flip then -direction else direction
  rhythm_clamp (rhythm + (d : ℚ) * RHYTHM_DRIFT_RATE * u) d

/-- Iterated rhythm updates from a start state, one `(flip, u)` pair of
random draws per emitted character. -/
def rhythm_iter (start : ℚ × Int) (draws : List (Bool × ℚ)) : ℚ × Int :=
  draws.foldl (fun s d => update_rhythm s.1 s.2 d.1 d.2) start

/- ### Typo streak model (TypingThread._update_typo_streak) -/

/-- `TypingThread._update_typo_streak`: on a typo set the streak to
`TYPO_STREAK_PROBABILITY`; otherwise multiply it by `TYPO_STREAK_DECAY`
and snap to exactly `0` when the result falls below `0.01`. -/
def update_typo_streak (made_typo : Bool) (streak : ℚ) : ℚ :=
  if made_typo then TYPO_STREAK_PROBABILITY
  else
    let s : ℚ := streak * TYPO_STREAK_DECAY
    if s < 1/100 then 0 else s

/-- Iterated decay of the streak by typo-free characters. -/
def streak_decay_iter : Nat → ℚ → ℚ
  | 0, s => s
  | n + 1, s => streak_decay_iter n (update_typo_streak false s)

/- ### Typo characters (TypingThread._get_typo_char / _type_typo_char) -/

/-- `Config.ADJACENT_KEYS`: QWERTY adjacency table, letters and digits. -/
def ADJACENT_KEYS : List (Char × List Char) :=
  [('a', "sqwz".toList), ('b', "vghn".toList), ('c', "xdfv".toList),
   ('d', "serfcx".toList), ('e', "wrsdf".toList), ('f', "drtgvc".toList),
   ('g', "ftyhbv".toList), ('h', "gyujnb".toList), ('i', "ujklo".toList),
   ('j', "huiknm".toList), ('k', "jiolm".toList), ('l', "kop".toList),
   ('m', "njk".toList), ('n', "bhjm".toList), ('o', "iklp".toList),
   ('p', "ol".toList), ('q', "wa".toList), ('r', "edft".toList),
   ('s', "awedxz".toList), ('t', "rfgy".toList), ('u', "yhji".toList),
   ('v', "cfgb".toList), ('w', "qase".toList), ('x', "zsdc".toList),
   ('y', "tghu".toList), ('z', "asx".toList), ('1', "2q".toList),
   ('2', "13qw".toList), ('3', "24we".toList), ('4', "35er".toList),
   ('5', "46rt".toList), ('6', "57ty".toList), ('7', "68yu".toList),
   ('8', "79ui".toList), ('9', "80io".toList), ('0', "9op".toList)]

/-- Dictionary lookup `config.ADJACENT_KEYS[lower_char]`. -/
def adjacent_of (c : Char) : Option (List Char) :=
  (ADJACENT_KEYS.find? (fun p => p.1 == c)).map (fun p => p.2)

/-- `TypingThread._get_typo_char`: look up the lowercased character in the
adjacency table; if present pick one neighbour (`random.choice`, the draw
passed in as the index `k`, reduced modulo the candidate count) and
preserve the intended character's case; otherwise `None`. -/
def get_typo_char (c : Char) (k : Nat) : Option Char :=
  match adjacent_of (py_lower c) with
  | none => none
  | some adjacent =>
      (adjacent[k % adjacent.length]?).map
        (fun typo => if py_isupper c then py_upper typo else typo)

/- ### The observable events of a session run -/

/-- One observable action of a session run: a physical keystroke of a
character (every path through `TypingThread._type_char` — enter/tab press,
direct write, or clipboard paste — emits the character once), a physical
backspace press, or one of the Qt signals `char_typed`, `progress`,
`stopped_at`, `finished_typing`. -/
inductive Event where
  | keyChar : Char → Event
  | keyBackspace : Event
  | charTyped : Char → Event
  | progress : Nat → Nat → Event
  | stoppedAt : Nat → Event
  | finishedTyping : Event
deriving DecidableEq, Repr

/-- The keystrokes of `TypingThread._correct_typos` on a non-empty buffer:
one backspace per buffered entry, then the buffered correct characters in
original order.  (The sleeps between them are timing only.)  The caller's
buffer is cleared afterwards. -/
def correct_typos (buffer : List (Char × Char)) : List Event :=
  buffer.map (fun _ => Event.keyBackspace)
    ++ buffer.map (fun p => Event.keyChar p.2)

/-- `TypingThread._should_make_typo`: only alphanumeric characters are
candidates; the draw of `random.random()` is compared against
`TYPO_PROBABILITY + streak`. -/
def should_make_typo (c : Char) (streak draw : ℚ) : Bool :=
  py_isalnum c && decide (draw < TYPO_PROBABILITY + streak)

/-- The loop body of `TypingThread.run`, modelled as the list of
observable events it produces together with the final typo buffer.

Arguments: `stop i` is the value of `self._stop_flag` as sampled at the
top of iteration `i`; `draw i` the `random.random()` draw used by
`_should_make_typo` at iteration `i`; `pick i` the `random.choice` draw
used by `_get_typo_char` at iteration `i`; `total = len(text)`; the list
argument is the remaining text `text[i:]`; then the loop index `i`, the
typo buffer and the typo streak.

Each iteration: sample the stop flag (if set, emit `stopped_at i` and
return); decide the typo; on a made typo emit the wrong character and
append `(wrong, correct)` to the buffer, resetting the streak; on a
failed typo (no adjacent key) or a negative decision emit the correct
character and decay the streak, flushing the buffer first in the
negative-decision case; then emit `char_typed` and `progress (i+1)`.
After the loop, flush any remaining buffer and emit `finished_typing`.
(The sleeps, the rhythm update and `prev_char` tracking affect timing
only and produce no event.) -/
def run_loop (stop : Nat → Bool) (draw : Nat → ℚ) (pick : Nat → Nat)
    (total : Nat) :
    List Char → Nat → List (Char × Char) → ℚ → List Event × List (Char × Char)
  | [], _, buffer, _ =>
      ((if buffer.isEmpty then [] else correct_typos buffer)
        ++ [Event.finishedTyping], [])
  | c :: rest, i, buffer, streak =>
      if stop i then ([Event.stoppedAt i], buffer)
      else if should_make_typo c streak (draw i) then
        match get_typo_char c (pick i) with
        | some typo =>
            let r := run_loop stop draw pick total rest (i + 1)
              (buffer ++ [(typo, c)]) (update_typo_streak true streak)
            (Event.keyChar typo :: Event.charTyped c
              :: Event.progress (i + 1) total :: r.1, r.2)
        | none =>
            let r := run_loop stop draw pick total rest (i + 1) buffer
              (update_typo_streak false streak)
            (Event.keyChar c :: Event.charTyped c
              :: Event.progress (i + 1) total :: r.1, r.2)
      else
        let flush := if buffer.isEmpty then [] else correct_typos buffer
        let r := run_loop stop draw pick total rest (i + 1) []
          (update_typo_streak false streak)
        (flush ++ Event.keyChar c :: Event.charTyped c
          :: Event.progress (i + 1) total :: r.1, r.2)

/-- `TypingThread.__init__`: the state a session is constructed with.
The constructor stores `text`, `min_delay`, `max_delay` and `start_pos`
exactly as passed (no reordering of the delay bounds). -/
structure TypingThread where
  text : List Char
  min_delay : ℚ
  max_delay : ℚ
  start_pos : Nat

/-- `TypingThread._get_base_delay` reading the bounds stored by the
constructor. -/
def TypingThread.base_delay (s : TypingThread) (extra : ℚ) : ℚ :=
  get_base_delay s.min_delay s.max_delay extra

/-- `TypingThread.run`: iterate from `start_pos` to `len(text) - 1`,
then flush and emit `finished_typing`.  Initial state: empty typo buffer,
zero streak. -/
def TypingThread.run (s : TypingThread) (stop : Nat → Bool)
    (draw : Nat → ℚ) (pick : Nat → Nat) : List Event × List (Char × Char) :=
  run_loop stop draw pick s.text.length (s.text.drop s.start_pos)
    s.start_pos [] 0

/-- The delay-bound normalization of `HumanTyper._start_typing`
(src/human_typer/main_window.py): swap the two bounds if the caller
passes them reversed, before constructing the `TypingThread`. -/
def gui_normalize_delays (min_delay max_delay : ℚ) : ℚ × ℚ :=
  if max_delay < min_delay then (max_delay, min_delay)
  else (min_delay, max_delay)

/- ### Projections of a run's event list -/

/-- The characters reported through the `char_typed` signal, in order. -/
def char_typed_events (l : List Event) : List Char :=
  l.filterMap fun e =>
    match e with
    | Event.charTyped c => some c
    | _ => none

/-- The `char_typed` and `progress` signal emissions, in order. -/
def notif_events (l : List Event) : List Event :=
  l.filter fun e =>
    match e with
    | Event.charTyped _ => true
    | Event.progress _ _ => true
    | _ => false

/-- The canonical notification sequence for typing `text[i:]`: for each
character, `char_typed` then `progress (i+1, total)`. -/
def notif_seq (total : Nat) : List Char → Nat → List Event
  | [], _ => []
  | c :: rest, i =>
      Event.charTyped c :: Event.progress (i + 1) total
        :: notif_seq total rest (i + 1)

/-- Replay of the physical keystrokes on the receiving application:
each typed character appends, each backspace deletes the most recently
surviving character; signal events touch nothing. -/
def reduce_screen (acc : List Char) : List Event → List Char
  | [] => acc
  | Event.keyChar c :: rest => reduce_screen (acc ++ [c]) rest
  | Event.keyBackspace :: rest => reduce_screen acc.dropLast rest
  | _ :: rest => reduce_screen acc rest

/-- A stop flag that is never set. -/
def never_stop : Nat → Bool := fun _ => false

/-- A stop flag raised (asynchronously) just before iteration `i` is
reached and kept set from then on. -/
def stop_from (i : Nat) : Nat → Bool := fun j => decide (i ≤ j)

/- ### Theorems -/

/- ### Theorems for the delay model claims -/

/-- C1: for every pair of delay bounds with `min_delay ≤ max_delay` and
every non-negative exponential draw, `get_base_delay` returns a value in
the closed interval `[min_delay, max_delay]`; and whenever
`max_delay ≤ min_delay` it returns exactly `min_delay`, unconditionally
for every draw. -/
theorem base_delay_range (min_delay max_delay extra : ℚ)
    (hextra : 0 ≤ extra) :
    (min_delay ≤ max_delay →
      min_delay ≤ get_base_delay min_delay max_delay extra
        ∧ get_base_delay min_delay max_delay extra ≤ max_delay)
    ∧ (∀ e : ℚ, max_delay ≤ min_delay →
        get_base_delay min_delay max_delay e = min_delay) := by
  constructor
  · intro hle
    unfold get_base_delay
    split
    · exact ⟨le_refl _, hle⟩
    · rename_i hpos
      push_neg at hpos
      constructor
      · exact le_min (by linarith) (by linarith)
      · exact min_le_right _ _
  · intro e hge
    unfold get_base_delay
    split
    · rfl
    · rename_i hpos
      push_neg at hpos
      linarith

/-- Witness for C1 at `min_delay = 15/1000`, `max_delay = 70/1000`,
`extra = 0`. -/
theorem base_delay_range_witness :
    (0 : ℚ) ≤ 0
    ∧ (((15/1000 : ℚ) ≤ 70/1000 →
        (15/1000 : ℚ) ≤ get_base_delay (15/1000) (70/1000) 0
          ∧ get_base_delay (15/1000) (70/1000) 0 ≤ 70/1000)
      ∧ (∀ e : ℚ, (70/1000 : ℚ) ≤ 15/1000 →
          get_base_delay (15/1000) (70/1000) e = 15/1000)) :=
  ⟨le_refl 0, base_delay_range (15/1000) (70/1000) 0 (le_refl 0)⟩

/-- C2: `get_char_modifier` agrees with the spec's priority-ordered rule
list `char_modifier_rules` on every character and previous character, and
in particular `get_char_modifier 'a' 'a' = MODIFIER_REPEATED` even though
`'a'` is a common letter. -/
theorem char_modifier_priority_rules :
    (∀ (c : Char) (prev : Option Char),
      get_char_modifier c prev = char_modifier_rules c prev)
    ∧ get_char_modifier 'a' (some 'a') = MODIFIER_REPEATED := by
  constructor
  · intro c prev
    unfold get_char_modifier char_modifier_rules
    split
    · rfl
    split
    · rfl
    split
    · rfl
    split
    · rfl
    split
    · rfl
    split
    · rfl
    · dsimp only
      split <;> split <;> ring
  · rfl

/-- The clamp block always lands inside `[RHYTHM_MIN, RHYTHM_MAX]`. -/
theorem rhythm_clamp_mem (r : ℚ) (d : Int) :
    RHYTHM_MIN ≤ (rhythm_clamp r d).1 ∧ (rhythm_clamp r d).1 ≤ RHYTHM_MAX := by
  unfold rhythm_clamp
  split_ifs with h1 h2
  · exact ⟨le_refl _, by norm_num [RHYTHM_MIN, RHYTHM_MAX]⟩
  · exact ⟨by norm_num [RHYTHM_MIN, RHYTHM_MAX], le_refl _⟩
  · push_neg at h1 h2
    exact ⟨le_of_lt h1, le_of_lt h2⟩

/-- One rhythm update always lands inside `[RHYTHM_MIN, RHYTHM_MAX]`,
whatever the input state and draws. -/
theorem update_rhythm_mem (rhythm : ℚ) (direction : Int) (flip : Bool)
    (u : ℚ) :
    RHYTHM_MIN ≤ (update_rhythm rhythm direction flip u).1
      ∧ (update_rhythm rhythm direction flip u).1 ≤ RHYTHM_MAX :=
  rhythm_clamp_mem _ _

/-- Helper: folding rhythm updates from any in-range state stays in
range. -/
theorem rhythm_iter_mem (draws : List (Bool × ℚ)) :
    ∀ s : ℚ × Int, RHYTHM_MIN ≤ s.1 → s.1 ≤ RHYTHM_MAX →
      RHYTHM_MIN ≤ (rhythm_iter s draws).1
        ∧ (rhythm_iter s draws).1 ≤ RHYTHM_MAX := by
  induction draws with
  | nil => intro s h1 h2; exact ⟨h1, h2⟩
  | cons d rest ih =>
      intro s _ _
      have hmem := update_rhythm_mem s.1 s.2 d.1 d.2
      exact ih _ hmem.1 hmem.2

/-- Bouncing: when the clamp block outputs the minimum bound the
direction becomes `+1`; when it outputs the maximum bound the direction
becomes `-1`. -/
theorem rhythm_clamp_bounce (r : ℚ) (d : Int) :
    ((rhythm_clamp r d).1 = RHYTHM_MIN → (rhythm_clamp r d).2 = 1)
      ∧ ((rhythm_clamp r d).1 = RHYTHM_MAX → (rhythm_clamp r d).2 = -1) := by
  unfold rhythm_clamp
  split_ifs with h1 h2
  · refine ⟨fun _ => rfl, fun h => absurd h ?_⟩
    norm_num [RHYTHM_MIN, RHYTHM_MAX]
  · refine ⟨fun h => absurd h ?_, fun _ => rfl⟩
    norm_num [RHYTHM_MIN, RHYTHM_MAX]
  · push_neg at h1 h2
    exact ⟨fun h => absurd h (ne_of_gt h1), fun h => absurd h (ne_of_lt h2)⟩

/-- C6: starting from `rhythm = 1.0` (with any initial direction), after
any number of rhythm updates the rhythm never leaves
`[RHYTHM_MIN, RHYTHM_MAX]`; and whenever an update clamps the rhythm at
`RHYTHM_MIN` the direction becomes `+1`, and whenever it clamps at
`RHYTHM_MAX` the direction becomes `-1`. -/
theorem rhythm_bounded_and_bounces :
    (∀ (d0 : Int) (draws : List (Bool × ℚ)),
      RHYTHM_MIN ≤ (rhythm_iter (1, d0) draws).1
        ∧ (rhythm_iter (1, d0) draws).1 ≤ RHYTHM_MAX)
    ∧ (∀ (rhythm : ℚ) (direction : Int) (flip : Bool) (u : ℚ),
        ((update_rhythm rhythm direction flip u).1 = RHYTHM_MIN →
          (update_rhythm rhythm direction flip u).2 = 1)
        ∧ ((update_rhythm rhythm direction flip u).1 = RHYTHM_MAX →
          (update_rhythm rhythm direction flip u).2 = -1)) := by
  constructor
  · intro d0 draws
    exact rhythm_iter_mem draws (1, d0) (by norm_num [RHYTHM_MIN])
      (by norm_num [RHYTHM_MAX])
  · intro rhythm direction flip u
    exact rhythm_clamp_bounce _ _

/-- Helper: a typo-free update keeps the streak non-negative and does not
increase it. -/
theorem update_typo_streak_decay_le (streak : ℚ) (h : 0 ≤ streak) :
    0 ≤ update_typo_streak false streak
      ∧ update_typo_streak false streak ≤ streak := by
  have heq : update_typo_streak false streak
      = if streak * TYPO_STREAK_DECAY < 1/100 then 0
        else streak * TYPO_STREAK_DECAY := rfl
  have hd0 : (0 : ℚ) ≤ TYPO_STREAK_DECAY := by norm_num [TYPO_STREAK_DECAY]
  have hd1 : TYPO_STREAK_DECAY ≤ 1 := by norm_num [TYPO_STREAK_DECAY]
  rw [heq]
  split_ifs with hs
  · exact ⟨le_refl 0, h⟩
  · exact ⟨mul_nonneg h hd0, by nlinarith⟩

/-- C7: the streak update sets the streak to exactly
`TYPO_STREAK_PROBABILITY` after any typo (a flat assignment); after a
non-typo character it multiplies the streak by `TYPO_STREAK_DECAY`
(which lies in `[0, 1]`), snapping to exactly `0` below `0.01`; hence
from any non-negative streak (in particular the initial `0`) the streak
is monotonically non-increasing across any number of typo-free updates. -/
theorem typo_streak_flat_reset_and_decay (streak : ℚ) (h : 0 ≤ streak) :
    (0 ≤ TYPO_STREAK_DECAY ∧ TYPO_STREAK_DECAY ≤ 1)
    ∧ (∀ s : ℚ, update_typo_streak true s = TYPO_STREAK_PROBABILITY)
    ∧ (∀ s : ℚ, ¬ (s * TYPO_STREAK_DECAY < 1/100) →
        update_typo_streak false s = s * TYPO_STREAK_DECAY)
    ∧ (∀ s : ℚ, s * TYPO_STREAK_DECAY < 1/100 →
        update_typo_streak false s = 0)
    ∧ (∀ n : Nat,
        streak_decay_iter (n + 1) streak ≤ streak_decay_iter n streak) := by
  refine ⟨⟨by norm_num [TYPO_STREAK_DECAY], by norm_num [TYPO_STREAK_DECAY]⟩,
    fun s => rfl, fun s hs => ?_, fun s hs => ?_, ?_⟩
  · show (if s * TYPO_STREAK_DECAY < 1/100 then (0 : ℚ)
        else s * TYPO_STREAK_DECAY) = s * TYPO_STREAK_DECAY
    rw [if_neg hs]
  · show (if s * TYPO_STREAK_DECAY < 1/100 then (0 : ℚ)
        else s * TYPO_STREAK_DECAY) = 0
    rw [if_pos hs]
  · have key : ∀ (n : Nat) (s : ℚ), 0 ≤ s →
        streak_decay_iter (n + 1) s ≤ streak_decay_iter n s
          ∧ 0 ≤ streak_decay_iter n s := by
      intro n
      induction n with
      | zero =>
          intro s hs
          exact ⟨(update_typo_streak_decay_le s hs).2, hs⟩
      | succ m ih =>
          intro s hs
          have hstep := update_typo_streak_decay_le s hs
          have := ih (update_typo_streak false s) hstep.1
          exact ⟨this.1, this.2⟩
    intro n
    exact (key n streak h).1

/-- Witness for C7 at `streak = 0`. -/
theorem typo_streak_flat_reset_and_decay_witness :
    (0 : ℚ) ≤ 0
    ∧ ((0 ≤ TYPO_STREAK_DECAY ∧ TYPO_STREAK_DECAY ≤ 1)
      ∧ (∀ s : ℚ, update_typo_streak true s = TYPO_STREAK_PROBABILITY)
      ∧ (∀ s : ℚ, ¬ (s * TYPO_STREAK_DECAY < 1/100) →
          update_typo_streak false s = s * TYPO_STREAK_DECAY)
      ∧ (∀ s : ℚ, s * TYPO_STREAK_DECAY < 1/100 →
          update_typo_streak false s = 0)
      ∧ (∀ n : Nat,
          streak_decay_iter (n + 1) 0 ≤ streak_decay_iter n 0)) :=
  ⟨le_refl 0, typo_streak_flat_reset_and_decay 0 (le_refl 0)⟩

/- ### Helper lemmas about event projections -/

theorem char_typed_events_nil : char_typed_events [] = [] := rfl

theorem char_typed_events_cons_key (c : Char) (l : List Event) :
    char_typed_events (Event.keyChar c :: l) = char_typed_events l := rfl

theorem char_typed_events_cons_typed (c : Char) (l : List Event) :
    char_typed_events (Event.charTyped c :: l) = c :: char_typed_events l :=
  rfl

theorem char_typed_events_cons_prog (a b : Nat) (l : List Event) :
    char_typed_events (Event.progress a b :: l) = char_typed_events l := rfl

theorem notif_events_cons_key (c : Char) (l : List Event) :
    notif_events (Event.keyChar c :: l) = notif_events l := rfl

theorem notif_events_cons_typed (c : Char) (l : List Event) :
    notif_events (Event.charTyped c :: l)
      = Event.charTyped c :: notif_events l := rfl

theorem notif_events_cons_prog (a b : Nat) (l : List Event) :
    notif_events (Event.progress a b :: l)
      = Event.progress a b :: notif_events l := rfl

theorem char_typed_events_append (l₁ l₂ : List Event) :
    char_typed_events (l₁ ++ l₂)
      = char_typed_events l₁ ++ char_typed_events l₂ := by
  simp [char_typed_events]

theorem notif_events_append (l₁ l₂ : List Event) :
    notif_events (l₁ ++ l₂) = notif_events l₁ ++ notif_events l₂ := by
  simp [notif_events]

theorem char_typed_events_backspaces (buffer : List (Char × Char)) :
    char_typed_events (buffer.map fun _ => Event.keyBackspace) = [] := by
  induction buffer with
  | nil => rfl
  | cons p rest ih => exact ih

theorem char_typed_events_retypes (buffer : List (Char × Char)) :
    char_typed_events (buffer.map fun p => Event.keyChar p.2) = [] := by
  induction buffer with
  | nil => rfl
  | cons p rest ih =>
      rw [List.map_cons, char_typed_events_cons_key]
      exact ih

theorem notif_events_backspaces (buffer : List (Char × Char)) :
    notif_events (buffer.map fun _ => Event.keyBackspace) = [] := by
  induction buffer with
  | nil => rfl
  | cons p rest ih => exact ih

theorem notif_events_retypes (buffer : List (Char × Char)) :
    notif_events (buffer.map fun p => Event.keyChar p.2) = [] := by
  induction buffer with
  | nil => rfl
  | cons p rest ih =>
      rw [List.map_cons, notif_events_cons_key]
      exact ih

/-- The correction procedure emits no `char_typed` signal. -/
theorem char_typed_events_correct_typos (buffer : List (Char × Char)) :
    char_typed_events (correct_typos buffer) = [] := by
  unfold correct_typos
  rw [char_typed_events_append, char_typed_events_backspaces,
    char_typed_events_retypes]
  rfl

/-- The correction procedure emits no notification signal either. -/
theorem notif_events_correct_typos (buffer : List (Char × Char)) :
    notif_events (correct_typos buffer) = [] := by
  unfold correct_typos
  rw [notif_events_append, notif_events_backspaces, notif_events_retypes]
  rfl

theorem char_typed_events_flush (buffer : List (Char × Char)) :
    char_typed_events (if buffer.isEmpty then [] else correct_typos buffer)
      = [] := by
  split
  · rfl
  · exact char_typed_events_correct_typos buffer

theorem notif_events_flush (buffer : List (Char × Char)) :
    notif_events (if buffer.isEmpty then [] else correct_typos buffer)
      = [] := by
  split
  · rfl
  · exact notif_events_correct_typos buffer

/- ### Helper lemmas about the run loop -/

/-- Without a stop request, the `char_typed` signals of a run of the loop
are exactly the remaining text, in order, whatever the random draws and
the starting buffer and streak. -/
theorem char_typed_run_loop (draw : Nat → ℚ) (pick : Nat → Nat)
    (total : Nat) :
    ∀ (rest : List Char) (i : Nat) (buffer : List (Char × Char))
      (streak : ℚ),
      char_typed_events
        (run_loop never_stop draw pick total rest i buffer streak).1
        = rest := by
  intro rest
  induction rest with
  | nil =>
      intro i buffer streak
      rw [run_loop]
      dsimp only
      rw [char_typed_events_append, char_typed_events_flush]
      rfl
  | cons c rest ih =>
      intro i buffer streak
      rw [run_loop, if_neg (by simp [never_stop])]
      by_cases hst : should_make_typo c streak (draw i) = true
      · rw [if_pos hst]
        cases hgt : get_typo_char c (pick i) with
        | some typo =>
            dsimp only
            rw [char_typed_events_cons_key, char_typed_events_cons_typed,
              char_typed_events_cons_prog]
            exact congrArg (c :: ·) (ih (i + 1) _ _)
        | none =>
            dsimp only
            rw [char_typed_events_cons_key, char_typed_events_cons_typed,
              char_typed_events_cons_prog]
            exact congrArg (c :: ·) (ih (i + 1) _ _)
      · rw [if_neg hst]
        dsimp only
        rw [char_typed_events_append, char_typed_events_flush,
          char_typed_events_cons_key, char_typed_events_cons_typed,
          char_typed_events_cons_prog, List.nil_append]
        exact congrArg (c :: ·) (ih (i + 1) _ _)

/-- Without a stop request, the notification signals of a run of the loop
are the canonical `char_typed` / `progress` interleaving for the
remaining text, whatever the random draws and the starting buffer and
streak. -/
theorem notif_run_loop (draw : Nat → ℚ) (pick : Nat → Nat) (total : Nat) :
    ∀ (rest : List Char) (i : Nat) (buffer : List (Char × Char))
      (streak : ℚ),
      notif_events (run_loop never_stop draw pick total rest i buffer streak).1
        = notif_seq total rest i := by
  intro rest
  induction rest with
  | nil =>
      intro i buffer streak
      rw [run_loop]
      dsimp only
      rw [notif_events_append, notif_events_flush]
      rfl
  | cons c rest ih =>
      intro i buffer streak
      rw [run_loop, if_neg (by simp [never_stop]), notif_seq]
      by_cases hst : should_make_typo c streak (draw i) = true
      · rw [if_pos hst]
        cases hgt : get_typo_char c (pick i) with
        | some typo =>
            dsimp only
            rw [notif_events_cons_key, notif_events_cons_typed,
              notif_events_cons_prog]
            exact congrArg (Event.charTyped c
              :: Event.progress (i + 1) total :: ·) (ih (i + 1) _ _)
        | none =>
            dsimp only
            rw [notif_events_cons_key, notif_events_cons_typed,
              notif_events_cons_prog]
            exact congrArg (Event.charTyped c
              :: Event.progress (i + 1) total :: ·) (ih (i + 1) _ _)
      · rw [if_neg hst]
        dsimp only
        rw [notif_events_append, notif_events_flush, notif_events_cons_key,
          notif_events_cons_typed, notif_events_cons_prog, List.nil_append]
        exact congrArg (Event.charTyped c
          :: Event.progress (i + 1) total :: ·) (ih (i + 1) _ _)

/-- When the stop flag goes up before iteration `iStop` is reached (and
the text extends that far), the run emits the `char_typed` signals of
exactly the characters strictly before index `iStop` and ends with
`stopped_at iStop`. -/
theorem run_loop_stop_shape (draw : Nat → ℚ) (pick : Nat → Nat)
    (total iStop : Nat) :
    ∀ (rest : List Char) (i : Nat) (buffer : List (Char × Char))
      (streak : ℚ), i ≤ iStop → iStop < i + rest.length →
      ∃ pre,
        (run_loop (stop_from iStop) draw pick total rest i buffer streak).1
          = pre ++ [Event.stoppedAt iStop]
        ∧ char_typed_events pre = rest.take (iStop - i) := by
  intro rest
  induction rest with
  | nil =>
      intro i buffer streak h1 h2
      simp only [List.length_nil, Nat.add_zero] at h2
      omega
  | cons c rest ih =>
      intro i buffer streak h1 h2
      rw [run_loop]
      by_cases heq : i = iStop
      · subst heq
        rw [if_pos (by simp [stop_from])]
        refine ⟨[], rfl, ?_⟩
        rw [Nat.sub_self, List.take_zero]
        rfl
      · have hlt : i < iStop := lt_of_le_of_ne h1 heq
        rw [if_neg (by simp only [stop_from, decide_eq_true_eq]; omega)]
        have hle : i + 1 ≤ iStop := by omega
        have hlen : iStop < (i + 1) + rest.length := by
          simp only [List.length_cons] at h2
          omega
        have htake : (c :: rest).take (iStop - i)
            = c :: rest.take (iStop - (i + 1)) := by
          have hs : iStop - i = (iStop - (i + 1)) + 1 := by omega
          rw [hs, List.take_succ_cons]
        by_cases hst : should_make_typo c streak (draw i) = true
        · rw [if_pos hst]
          cases hgt : get_typo_char c (pick i) with
          | some typo =>
              obtain ⟨pre, hpre, hct⟩ := ih (i + 1) (buffer ++ [(typo, c)])
                (update_typo_streak true streak) hle hlen
              refine ⟨Event.keyChar typo :: Event.charTyped c
                :: Event.progress (i + 1) total :: pre, ?_, ?_⟩
              · dsimp only
                rw [hpre, List.cons_append, List.cons_append, List.cons_append]
              · rw [htake, char_typed_events_cons_key,
                  char_typed_events_cons_typed, char_typed_events_cons_prog]
                exact congrArg (c :: ·) hct
          | none =>
              obtain ⟨pre, hpre, hct⟩ := ih (i + 1) buffer
                (update_typo_streak false streak) hle hlen
              refine ⟨Event.keyChar c :: Event.charTyped c
                :: Event.progress (i + 1) total :: pre, ?_, ?_⟩
              · dsimp only
                rw [hpre, List.cons_append, List.cons_append, List.cons_append]
              · rw [htake, char_typed_events_cons_key,
                  char_typed_events_cons_typed, char_typed_events_cons_prog]
                exact congrArg (c :: ·) hct
        · rw [if_neg hst]
          obtain ⟨pre, hpre, hct⟩ := ih (i + 1) []
            (update_typo_streak false streak) hle hlen
          refine ⟨(if buffer.isEmpty then [] else correct_typos buffer)
            ++ Event.keyChar c :: Event.charTyped c
              :: Event.progress (i + 1) total :: pre, ?_, ?_⟩
          · dsimp only
            rw [hpre, List.append_assoc, List.cons_append, List.cons_append,
              List.cons_append]
          · rw [htake, char_typed_events_append, char_typed_events_flush,
              char_typed_events_cons_key, char_typed_events_cons_typed,
              char_typed_events_cons_prog, List.nil_append]
            exact congrArg (c :: ·) hct


/- ### Theorems for the session loop claims -/

/-- C3: if the stop flag is observed set at loop index `i`, the session
emits `stopped_at i` as its final event, with the `char_typed` signals
before it covering exactly the characters strictly before index `i`
(the character at index `i` and all later ones are never reported); and
a fresh session resumed with `start_pos = i` over the same text of
length `n` reports exactly the `n - i` remaining characters
`text[i..n-1]`, in order (absent further stop requests), whatever the
random draws of either run. -/
theorem run_stop_then_resume (t : List Char) (m M m2 M2 : ℚ)
    (start i : Nat) (draw draw2 : Nat → ℚ) (pick pick2 : Nat → Nat)
    (h1 : start ≤ i) (h2 : i < t.length) :
    (∃ pre,
      (TypingThread.run ⟨t, m, M, start⟩ (stop_from i) draw pick).1
        = pre ++ [Event.stoppedAt i]
      ∧ char_typed_events pre = (t.drop start).take (i - start))
    ∧ char_typed_events
        (TypingThread.run ⟨t, m2, M2, i⟩ never_stop draw2 pick2).1
          = t.drop i
    ∧ (t.drop i).length = t.length - i := by
  refine ⟨?_, ?_, ?_⟩
  · have hlen : i < start + (t.drop start).length := by
      rw [List.length_drop]
      omega
    exact run_loop_stop_shape draw pick t.length i (t.drop start) start
      [] 0 h1 hlen
  · exact char_typed_run_loop draw2 pick2 t.length (t.drop i) i [] 0
  · rw [List.length_drop]

/-- Witness for C3: text `"abc"`, stop observed at index 1, resume
from index 1 (draws produce no typos in neither run, though the theorem
holds for any). -/
theorem run_stop_then_resume_witness :
    (0 ≤ 1 ∧ 1 < (['a', 'b', 'c'] : List Char).length)
    ∧ ((∃ pre,
        (TypingThread.run ⟨['a', 'b', 'c'], 15/1000, 70/1000, 0⟩
            (stop_from 1) (fun _ => 1) (fun _ => 0)).1
          = pre ++ [Event.stoppedAt 1]
        ∧ char_typed_events pre
          = ((['a', 'b', 'c'] : List Char).drop 0).take (1 - 0))
      ∧ char_typed_events
          (TypingThread.run ⟨['a', 'b', 'c'], 15/1000, 70/1000, 1⟩
              never_stop (fun _ => 1) (fun _ => 0)).1
            = (['a', 'b', 'c'] : List Char).drop 1
      ∧ ((['a', 'b', 'c'] : List Char).drop 1).length
          = (['a', 'b', 'c'] : List Char).length - 1) :=
  ⟨⟨by omega, by decide⟩,
    run_stop_then_resume ['a', 'b', 'c'] (15/1000) (70/1000) (15/1000)
      (70/1000) 0 1 (fun _ => 1) (fun _ => 1) (fun _ => 0) (fun _ => 0)
      (by omega) (by decide)⟩

/-- C4 (amended): when the stop flag is observed at the top of an
iteration the session immediately emits `stopped_at i` and terminates,
leaving the typo buffer exactly as it was — the buffered typos are NOT
flushed on the stop path (the flush runs only when a non-typo character
is emitted or at natural end-of-text). -/
theorem stop_reports_without_flush (stop : Nat → Bool) (draw : Nat → ℚ)
    (pick : Nat → Nat) (total : Nat) (c : Char) (rest : List Char)
    (i : Nat) (buffer : List (Char × Char)) (streak : ℚ)
    (h : stop i = true) :
    run_loop stop draw pick total (c :: rest) i buffer streak
      = ([Event.stoppedAt i], buffer) := by
  rw [run_loop, if_pos h]

/-- Witness for the amended C4: a stop observed with one typo buffered
returns `stopped_at` and the untouched buffer. -/
theorem stop_reports_without_flush_witness :
    stop_from 0 0 = true
    ∧ run_loop (stop_from 0) (fun _ => 0) (fun _ => 0) 1 ['a'] 0
        [('s', 'a')] 0
      = ([Event.stoppedAt 0], [('s', 'a')]) :=
  ⟨rfl, stop_reports_without_flush (stop_from 0) (fun _ => 0) (fun _ => 0)
    1 'a' [] 0 [('s', 'a')] 0 rfl⟩

/-- Counterexample to C4 as stated: typing `"ab"` with a typo made on
`'a'` (`'s'` typed instead) and the stop flag raised before iteration 1,
the session reports `stopped_at 1` as its final event with NO backspace
emitted and the typo buffer still holding `('s', 'a')` — the Stopped
transition is not accompanied by an empty typo buffer, and no correction
ran before `stopped_at`. -/
theorem stopped_with_open_buffer_cex :
    (TypingThread.run ⟨['a', 'b'], 15/1000, 70/1000, 0⟩ (stop_from 1)
        (fun _ => 0) (fun _ => 0)).1
      = [Event.keyChar 's', Event.charTyped 'a', Event.progress 1 2,
         Event.stoppedAt 1]
    ∧ (TypingThread.run ⟨['a', 'b'], 15/1000, 70/1000, 0⟩ (stop_from 1)
        (fun _ => 0) (fun _ => 0)).2 = [('s', 'a')]
    ∧ ([('s', 'a')] : List (Char × Char)) ≠ [] := by
  have hq : ((0:ℚ) < TYPO_PROBABILITY) := by norm_num [TYPO_PROBABILITY]
  have hs : should_make_typo 'a' 0 0 = true := by
    unfold should_make_typo
    simp +decide [py_isalnum, hq]
  refine ⟨?_, ?_, by decide⟩ <;>
  · simp +decide [TypingThread.run, run_loop, stop_from, hs, get_typo_char,
      adjacent_of, ADJACENT_KEYS, py_lower, py_isupper, py_upper]

theorem map_backspace_replicate (buffer : List (Char × Char)) :
    buffer.map (fun _ => Event.keyBackspace)
      = List.replicate buffer.length Event.keyBackspace := by
  induction buffer with
  | nil => rfl
  | cons p rest ih => simp [List.replicate_succ, ih]

/-- C5: the bulk correction emits exactly one backspace per buffered
entry (oldest first) followed by the buffered correct characters in
their original order, leaving the buffer empty; concretely, after two
consecutive forced typos on `"abc"` followed by a non-typo decision on
`'c'`, exactly 2 backspaces then the 2 correct re-emissions occur before
`'c'` is typed; and on `"ab"` with both characters typo'd the flush runs
at end-of-text, `finished_typing` firing only after it. -/
theorem bulk_correction_shape :
    (∀ buffer : List (Char × Char),
      correct_typos buffer
        = List.replicate buffer.length Event.keyBackspace
          ++ buffer.map (fun p => Event.keyChar p.2))
    ∧ (TypingThread.run ⟨['a', 'b', 'c'], 15/1000, 70/1000, 0⟩ never_stop
        (fun i => if i < 2 then 0 else 1) (fun _ => 0)).1
      = [Event.keyChar 's', Event.charTyped 'a', Event.progress 1 3,
         Event.keyChar 'v', Event.charTyped 'b', Event.progress 2 3,
         Event.keyBackspace, Event.keyBackspace,
         Event.keyChar 'a', Event.keyChar 'b',
         Event.keyChar 'c', Event.charTyped 'c', Event.progress 3 3,
         Event.finishedTyping]
    ∧ (TypingThread.run ⟨['a', 'b'], 15/1000, 70/1000, 0⟩ never_stop
        (fun _ => 0) (fun _ => 0)).1
      = [Event.keyChar 's', Event.charTyped 'a', Event.progress 1 2,
         Event.keyChar 'v', Event.charTyped 'b', Event.progress 2 2,
         Event.keyBackspace, Event.keyBackspace,
         Event.keyChar 'a', Event.keyChar 'b',
         Event.finishedTyping] := by
  have hq1 : ((0:ℚ) < TYPO_PROBABILITY) := by norm_num [TYPO_PROBABILITY]
  have hq2 : ((0:ℚ) < TYPO_PROBABILITY + TYPO_STREAK_PROBABILITY) := by
    norm_num [TYPO_PROBABILITY, TYPO_STREAK_PROBABILITY]
  have hq3 : ¬ ((1:ℚ) < TYPO_PROBABILITY + TYPO_STREAK_PROBABILITY) := by
    norm_num [TYPO_PROBABILITY, TYPO_STREAK_PROBABILITY]
  have hsa : should_make_typo 'a' 0 0 = true := by
    unfold should_make_typo
    simp +decide [py_isalnum, hq1]
  have hsb : should_make_typo 'b' TYPO_STREAK_PROBABILITY 0 = true := by
    unfold should_make_typo
    simp +decide [py_isalnum, hq2]
  have hsc : should_make_typo 'c' TYPO_STREAK_PROBABILITY 1 = false := by
    unfold should_make_typo
    simp +decide [py_isalnum, hq3]
  refine ⟨fun buffer => ?_, ?_, ?_⟩
  · unfold correct_typos
    rw [map_backspace_replicate]
  · simp +decide [TypingThread.run, run_loop, never_stop, hsa, hsb, hsc,
      update_typo_streak, get_typo_char, adjacent_of, ADJACENT_KEYS,
      py_lower, py_isupper, py_upper, correct_typos]
  · simp +decide [TypingThread.run, run_loop, never_stop, hsa, hsb,
      update_typo_streak, get_typo_char, adjacent_of, ADJACENT_KEYS,
      py_lower, py_isupper, py_upper, correct_typos]

/-- C8 (amended): the GUI caller (`HumanTyper._start_typing`) swaps
reversed delay bounds before constructing the session, so GUI-created
sessions always carry an ordered pair; but the session constructor
itself (`TypingThread.__init__`) stores the bounds exactly as passed and
performs no normalization, and a session constructed directly with
`max_delay ≤ min_delay` degenerates to the constant base delay
`min_delay`. -/
theorem gui_swaps_session_does_not (min_delay max_delay extra : ℚ)
    (t : List Char) (p : Nat) :
    ((gui_normalize_delays min_delay max_delay).1
        ≤ (gui_normalize_delays min_delay max_delay).2)
    ∧ (max_delay < min_delay →
        gui_normalize_delays min_delay max_delay
          = (max_delay, min_delay))
    ∧ (TypingThread.mk t min_delay max_delay p).min_delay = min_delay
    ∧ (TypingThread.mk t min_delay max_delay p).max_delay = max_delay
    ∧ (max_delay ≤ min_delay →
        TypingThread.base_delay ⟨t, min_delay, max_delay, p⟩ extra
          = min_delay) := by
  refine ⟨?_, ?_, rfl, rfl, ?_⟩
  · unfold gui_normalize_delays
    split_ifs with h
    · exact le_of_lt h
    · push_neg at h
      exact h
  · intro h
    unfold gui_normalize_delays
    rw [if_pos h]
  · intro h
    unfold TypingThread.base_delay get_base_delay
    rw [if_pos (by dsimp only; linarith)]

/-- Witness for the amended C8 at `min_delay = 2`, `max_delay = 1`. -/
theorem gui_swaps_session_does_not_witness :
    ((gui_normalize_delays 2 1).1 ≤ (gui_normalize_delays 2 1).2)
    ∧ ((1:ℚ) < 2 → gui_normalize_delays 2 1 = (1, 2))
    ∧ (TypingThread.mk ['a'] 2 1 0).min_delay = 2
    ∧ (TypingThread.mk ['a'] 2 1 0).max_delay = 1
    ∧ ((1:ℚ) ≤ 2 →
        TypingThread.base_delay ⟨['a'], 2, 1, 0⟩ 0 = 2) :=
  gui_swaps_session_does_not 2 1 0 ['a'] 0

/-- Counterexample to C8 as stated: a session constructed with the
reversed bounds `(min_delay, max_delay) = (2, 1)` does NOT behave like
the swapped session `(1, 2)`: at the same exponential draw `0` the
former's base delay is `2` while the latter's is `1`. -/
theorem reversed_bounds_behave_differently_cex :
    TypingThread.base_delay ⟨['a'], 2, 1, 0⟩ 0 = 2
    ∧ TypingThread.base_delay ⟨['a'], 1, 2, 0⟩ 0 = 1
    ∧ (2:ℚ) ≠ 1 := by
  refine ⟨?_, ?_, by norm_num⟩ <;>
  · unfold TypingThread.base_delay get_base_delay
    norm_num

/-- C9: two sessions constructed with identical text, delay bounds and
start position, driven by the same stop flag and the same deterministic
random source, produce identical event sequences (hence identical
emitted characters and identical notifications); and in every
stop-free run the `char_typed` / `progress` notifications occur in the
fixed canonical order matching the text: for the `k`-th remaining
character, `char_typed text[p+k]` then `progress (p+k+1, total)`. -/
theorem run_deterministic_fixed_order (t t2 : List Char) (m m2 M M2 : ℚ)
    (p p2 : Nat) (stop : Nat → Bool) (draw : Nat → ℚ) (pick : Nat → Nat)
    (ht : t = t2) (hm : m = m2) (hM : M = M2) (hp : p = p2) :
    TypingThread.run ⟨t, m, M, p⟩ stop draw pick
      = TypingThread.run ⟨t2, m2, M2, p2⟩ stop draw pick
    ∧ notif_events (TypingThread.run ⟨t, m, M, p⟩ never_stop draw pick).1
      = notif_seq t.length (t.drop p) p := by
  subst ht hm hM hp
  exact ⟨rfl, notif_run_loop draw pick t.length (t.drop p) p [] 0⟩

/-- Witness for C9 at text `"hi"`, equal configurations. -/
theorem run_deterministic_fixed_order_witness :
    (TypingThread.run ⟨['h', 'i'], 15/1000, 70/1000, 0⟩ never_stop
        (fun _ => 1) (fun _ => 0)
      = TypingThread.run ⟨['h', 'i'], 15/1000, 70/1000, 0⟩ never_stop
        (fun _ => 1) (fun _ => 0))
    ∧ notif_events
        (TypingThread.run ⟨['h', 'i'], 15/1000, 70/1000, 0⟩ never_stop
          (fun _ => 1) (fun _ => 0)).1
      = notif_seq (['h', 'i'] : List Char).length
          ((['h', 'i'] : List Char).drop 0) 0 :=
  run_deterministic_fixed_order ['h', 'i'] ['h', 'i'] (15/1000) (15/1000)
    (70/1000) (70/1000) 0 0 never_stop (fun _ => 1) (fun _ => 0)
    rfl rfl rfl rfl

/-- C10 fails on the code: typing `"aé"` with a typo made on `'a'`
(`'s'` emitted, `('s','a')` buffered) and a typo also selected for `'é'`
— which has no adjacency entry, so `'é'` is typed correctly WITHOUT the
buffer being flushed first — the end-of-text correction then backspaces
over the correct `'é'` and retypes only `'a'`: the keystrokes reduce to
`"sa"`, not the intended remaining text `"aé"`.  (The docstrings of
`_type_typo_char` / `_correct_typos` — type a wrong character and buffer
it for later correction, backspace all then retype correct — make the
intended invariant clear; the stale buffer held across the
failed-typo path breaks it.) -/
theorem typo_correction_loses_character :
    (TypingThread.run ⟨['a', 'é'], 15/1000, 70/1000, 0⟩ never_stop
        (fun _ => 0) (fun _ => 0)).1
      = [Event.keyChar 's', Event.charTyped 'a', Event.progress 1 2,
         Event.keyChar 'é', Event.charTyped 'é', Event.progress 2 2,
         Event.keyBackspace, Event.keyChar 'a', Event.finishedTyping]
    ∧ reduce_screen []
        (TypingThread.run ⟨['a', 'é'], 15/1000, 70/1000, 0⟩ never_stop
          (fun _ => 0) (fun _ => 0)).1
      = ['s', 'a']
    ∧ (['s', 'a'] : List Char) ≠ ['a', 'é']
    ∧ (['a', 'é'] : List Char).drop 0 = ['a', 'é'] := by
  have hq1 : ((0:ℚ) < TYPO_PROBABILITY) := by norm_num [TYPO_PROBABILITY]
  have hq2 : ((0:ℚ) < TYPO_PROBABILITY + TYPO_STREAK_PROBABILITY) := by
    norm_num [TYPO_PROBABILITY, TYPO_STREAK_PROBABILITY]
  have hsa : should_make_typo 'a' 0 0 = true := by
    unfold should_make_typo
    simp +decide [py_isalnum, hq1]
  have hse : should_make_typo 'é' TYPO_STREAK_PROBABILITY 0 = true := by
    unfold should_make_typo
    simp +decide [py_isalnum, hq2]
  have htrace : (TypingThread.run ⟨['a', 'é'], 15/1000, 70/1000, 0⟩
      never_stop (fun _ => 0) (fun _ => 0)).1
      = [Event.keyChar 's', Event.charTyped 'a', Event.progress 1 2,
         Event.keyChar 'é', Event.charTyped 'é', Event.progress 2 2,
         Event.keyBackspace, Event.keyChar 'a', Event.finishedTyping] := by
    simp +decide [TypingThread.run, run_loop, never_stop, hsa, hse,
      update_typo_streak, get_typo_char, adjacent_of, ADJACENT_KEYS,
      py_lower, py_isupper, py_upper, correct_typos]
  refine ⟨htrace, ?_, by decide, rfl⟩
  rw [htrace]
  rfl
